import Mathlib

/-!
Shallow embedding of core/bright_lights.py (the EQcorrscan brightness pipeline):
grid ingestion (_read_tt), grid resampling (_resample_grid), node deduplication
(_rm_similarlags), per-node energy stacking (_node_loop), the out-of-core
cumulative network response (_cum_net_resp) together with its cross-chunk driver
fold in brightness, the in-memory reduction in brightness, the non-finite guard
of _find_detections, and the network coherance score (coherance).

Sample values are embedded as rationals.  numpy's sqrt is an external numerical
primitive and is abstracted as a function parameter where it occurs; the
matplotlib point-in-polygon test is likewise abstracted as a Boolean-valued
parameter.  File I/O (the .npy scratch slots of the out-of-core mode) is
modelled by passing the per-node energy traces as a function from node index
to trace.
-/

namespace BrightLights

/-- A grid node: (latitude, longitude, depth). -/
abbrev Node : Type := ℚ × ℚ × ℚ

/-- np.mean: sum divided by length (the source never takes the mean of an empty
array on the paths modelled here). -/
def meanQ (xs : List ℚ) : ℚ := xs.sum / xs.length

/-- Python min of a list; 0 on the empty list, which the source never hits. -/
def minQ : List ℚ → ℚ
  | [] => 0
  | x :: xs => xs.foldl min x

/-- Python 2 round: round half away from zero. -/
def pyround (q : ℚ) : Int := if 0 ≤ q then ⌊q + 1/2⌋ else -⌊-q + 1/2⌋

/-- Elementwise sum of a stack of rows, np.sum(..., axis=0) on a 2-D stack. -/
def sumRows : List (List ℚ) → List ℚ
  | [] => []
  | r :: rs => rs.foldl (fun a b => List.zipWith (· + ·) a b) r

/-- Auxiliary scan for argmaxFirst: k is the index of the head of the remaining
list, bi and bv the index and value of the best element seen so far. -/
def argmaxFirstAux (k bi : Nat) (bv : ℚ) : List ℚ → Nat
  | [] => bi
  | x :: xs => if bv < x then argmaxFirstAux (k + 1) k x xs else argmaxFirstAux (k + 1) bi bv xs

/-- np.argmax of a 1-D array: index of the first occurrence of the maximum. -/
def argmaxFirst : List ℚ → Nat
  | [] => 0
  | x :: xs => argmaxFirstAux 1 0 x xs

/-- L1 distance between two lag vectors: the sum over stations of the absolute
difference (the moveout distance named by the specification). -/
def l1dist (u v : List ℚ) : ℚ := (List.zipWith (fun a b => |a - b|) u v).sum

/-- Column i of the lag table: the lag vector of node i across stations, lags.T[i]. -/
def lagsCol (lags : List (List ℚ)) (i : Nat) : List ℚ := lags.map (fun row => row.getD i 0)

/-- The per-file lag computation of _read_tt (lines 105-114): optional P-S
conversion by the hard-coded factor 1.68, then re-zeroing against the minimum
travel time.  The psRat argument mirrors the ps_ratio parameter of the source,
which the body never reads. -/
def readTTLags (phase phaseout : String) (traveltime : List ℚ) (psRat : ℚ) : List ℚ :=
  let tt := if phase ≠ phaseout then
      (if phase = "S" then traveltime.map (fun x => x / (168/100))
       else traveltime.map (fun x => x * (168/100)))
    else traveltime
  tt.map (fun x => x - minQ tt)

/-- The node filter of _resample_grid (lines 158-163): keep node i when its depth
is strictly inside (mindepth, maxdepth) and its (lat, long) satisfies the
point-in-polygon test, abstracted as the parameter contains. -/
def resampKept (nodes : List Node) (mindepth maxdepth : ℚ) (contains : ℚ × ℚ → Bool) :
    List Nat :=
  (List.range nodes.length).filter (fun i =>
    let nd := nodes.getD i (0, 0, 0)
    decide (mindepth < nd.2.2) && decide (nd.2.2 < maxdepth) && contains (nd.1, nd.2.1))

/-- _resample_grid (lines 155-170).  The per-node append of nodes[i] and
[lags[:,i]] followed by the reshape to (kept, stations) and the transpose
amounts to slicing the kept columns out of the lag table. -/
def resampleGrid (stations : List String) (nodes : List Node) (lags : List (List ℚ))
    (mindepth maxdepth : ℚ) (contains : ℚ × ℚ → Bool) :
    List String × List Node × List (List ℚ) :=
  let kept := resampKept nodes mindepth maxdepth contains
  (stations, kept.map (fun i => nodes.getD i (0, 0, 0)),
    lags.map (fun row => kept.map (fun i => row.getD i 0)))

/-- abs((lags.T - lags.T[i]).sum(axis=1)) evaluated at node j: the absolute value
of the summed signed lag differences between nodes j and i. -/
def netdifVal (lags : List (List ℚ)) (i j : Nat) : ℚ :=
  |(List.zipWith (fun a b => a - b) (lagsCol lags j) (lagsCol lags i)).sum|

/-- One row of the netdif matrix of _rm_similarlags: the Boolean vector over all
n nodes telling whether node j differs from node i by more than the threshold. -/
def netdifRow (lags : List (List ℚ)) (n : Nat) (i : Nat) (thr : ℚ) : List Bool :=
  (List.range n).map (fun j => decide (thr < netdifVal lags i j))

/-- The netdif matrix exactly as the source builds it (lines 201-205): one initial
row for node 0 followed by one appended row per loop iteration i = 0..n-1, so the
row for node 0 appears twice and row index r of the matrix holds the data of node
r - 1 for every r at least 1. -/
def netdifMat (lags : List (List ℚ)) (n : Nat) (thr : ℚ) : List (List Bool) :=
  netdifRow lags n 0 thr :: (List.range n).map (fun i => netdifRow lags n i thr)

/-- The greedy retention scan of _rm_similarlags (lines 208-215): always keep node
0; keep node i when row i of the netdif matrix is true at every already kept index. -/
def rmKeptIndeces (lags : List (List ℚ)) (n : Nat) (thr : ℚ) : List Nat :=
  (List.range' 1 (n - 1)).foldl (fun kept i =>
    if kept.all (fun k => ((netdifMat lags n thr).getD i []).getD k false)
    then kept ++ [i] else kept) [0]

/-- _rm_similarlags (lines 200-218): the kept nodes and the lag table sliced to the
kept columns (lags.T[node_indeces].T). -/
def rmSimilarlags (stations : List String) (nodes : List Node) (lags : List (List ℚ))
    (thr : ℚ) : List String × List Node × List (List ℚ) :=
  let kept := rmKeptIndeces lags nodes.length thr
  (stations, kept.map (fun i => nodes.getD i (0, 0, 0)),
    lags.map (fun row => kept.map (fun i => row.getD i 0)))

/-- A single channel of the waveform set: station name, samples, sampling rate. -/
structure Trace where
  station : String
  data : List ℚ
  rate : ℚ

/-- The station-match list of _node_loop line 234: the indices k of the station
list whose name equals the channel's station. -/
def matchIdx (stations : List String) (tr : Trace) : List Nat :=
  (List.range stations.length).filter (fun k => stations.getD k "" == tr.station)

/-- np.clip with bounds lo and hi (numpy applies the upper bound last). -/
def clipQ (lo hi x : ℚ) : ℚ := min (max x lo) hi

/-- int(round(lag * sampling_rate)) of line 243, clamped at zero as np.zeros requires
a non-negative size. -/
def npadOf (lag rate : ℚ) : Nat := (pyround (lag * rate)).toNat

/-- Lines 243-244 of _node_loop: append int(round(lag*rate)) zeros to the data,
square elementwise, and drop the first pad-length samples. -/
def laggedEnergy (dat : List ℚ) (lag rate : ℚ) : List ℚ :=
  let pad := List.replicate (npadOf lag rate) (0 : ℚ)
  ((dat ++ pad).map (fun x => x ^ 2)).drop pad.length

/-- Lines 243-250 of _node_loop for one contributing channel: lag-shifted energy,
clipped above at clip_level times the envelope mean (floor 0), normalized by the
square root of the mean squared clipped value.  sq abstracts np.sqrt. -/
def normEnergy (sq : ℚ → ℚ) (clip_level : ℚ) (lag : ℚ) (tr : Trace) : List ℚ :=
  let lagged := laggedEnergy tr.data lag tr.rate
  let clipped := lagged.map (fun x => clipQ 0 (clip_level * meanQ lagged) x)
  clipped.map (fun x => x / sq (meanQ (clipped.map (fun y => y ^ 2))))

/-- One iteration of the channel loop of _node_loop (lines 233-252), carrying the
stack of normalized envelopes and the emitted warnings.  A channel matching more
than one station entry warns and uses the first entry; a channel matching no
entry warns and is skipped. -/
def nodeLoopStep (sq : ℚ → ℚ) (clip_level : ℚ) (stations : List String) (lags : List ℚ)
    (acc : List (List ℚ) × List String) (tr : Trace) : List (List ℚ) × List String :=
  let j := matchIdx stations tr
  let w1 := acc.2 ++ (if 1 < j.length then ["Too many stations"] else [])
  let j2 := if 1 < j.length then [j.headD 0] else j
  if j2 = [] then (acc.1, w1 ++ ["No station match"])
  else (acc.1 ++ [normEnergy sq clip_level (lags.getD (j2.headD 0) 0) tr], w1)

/-- _node_loop (lines 233-253): the emitted warnings and the node energy trace
(the elementwise sum of the stacked envelopes), or none when no channel
contributed, where the source would hit an unbound local variable. -/
def nodeLoop (sq : ℚ → ℚ) (clip_level : ℚ) (stations : List String) (lags : List ℚ)
    (stream : List Trace) : Option (List String × List ℚ) :=
  let res := stream.foldl (nodeLoopStep sq clip_level stations lags) ([], [])
  match res.1 with
  | [] => none
  | r :: rs => some (res.2, sumRows (r :: rs))

/-- The contribution of one channel to the energy stack, as _node_loop computes it:
none when the channel matches no station entry, otherwise the normalized envelope
using the lag of the first matching entry. -/
def traceContrib (sq : ℚ → ℚ) (clip_level : ℚ) (stations : List String) (lags : List ℚ)
    (tr : Trace) : Option (List ℚ) :=
  if matchIdx stations tr = [] then none
  else some (normEnergy sq clip_level (lags.getD ((matchIdx stations tr).headD 0) 0) tr)

/-- The warnings one channel makes _node_loop emit. -/
def traceWarns (stations : List String) (tr : Trace) : List String :=
  if 1 < (matchIdx stations tr).length then ["Too many stations"]
  else if (matchIdx stations tr).length = 0 then ["No station match"] else []

/-- One fold step of _cum_net_resp (lines 274-282): compare the running maximum
against the trace of node i; np.argmax over the pair selects the accumulator on
ties; the owner array is then rebuilt from this iteration's argmax alone
(indeces = updated_indeces), with the entries where the accumulator won set to 0. -/
def cumStep (energies : Nat → List ℚ) (acc : List ℚ × List Nat) (i : Nat) :
    List ℚ × List Nat :=
  let e := energies i
  let upd := List.zipWith (fun a b => if a < b then (1 : Nat) else 0) acc.1 e
  let cum := List.zipWith (fun a b => if a < b then b else a) acc.1 e
  (cum, upd.map (fun x => if x = 1 then i else x))

/-- _cum_net_resp (lines 260-284) on one chunk of node indices: the running maximum
trace and the owner-index trace.  The scratch .npy slots are modelled by the
energies function. -/
def cumNetResp (energies : Nat → List ℚ) (nodeLis : List Nat) : List ℚ × List Nat :=
  match nodeLis with
  | [] => ([], [])
  | n0 :: rest =>
    rest.foldl (cumStep energies) (energies n0, List.replicate (energies n0).length n0)

/-- The chunking of brightness (lines 480-484).  node_splits is integer division;
the middle chunks come from the loop for i in xrange(1, num_cores-1); the final
chunk starts at node_splits*(i+1) where i is num_cores-2 when that loop ran
(num_cores at least 3) and otherwise the value leaked by the earlier list
comprehension over xrange(len(nodes)), namely len(nodes)-1. -/
def chunkIndeces (n nc : Nat) : List (List Nat) :=
  let ns := n / nc
  let lastI := if 3 ≤ nc then nc - 2 else n - 1
  (List.range ns :: (List.range (nc - 2)).map (fun k => List.range' (ns * (k + 1)) ns))
    ++ [List.range' (ns * (lastI + 1)) (n - ns * (lastI + 1))]

/-- The chunks brightness actually hands to _cum_net_resp: the first num_cores
entries of the chunk list (line 486 iterates i over xrange(num_cores)). -/
def usedChunks (n nc : Nat) : List (List Nat) := (chunkIndeces n nc).take nc

/-- The cross-chunk fold of brightness (lines 491-501): per sample, np.argmax over
the per-chunk running maxima (first maximum wins) selects the winning chunk; the
value comes from that chunk's maximum trace and the owner from its owner trace. -/
def brightnessOOC (energies : Nat → List ℚ) (chunks : List (List Nat)) :
    List ℚ × List Nat :=
  let results := chunks.map (cumNetResp energies)
  let T := ((results.headD ([], [])).1).length
  ((List.range T).map (fun j =>
      let w := argmaxFirst (results.map (fun r => r.1.getD j 0))
      (results.getD w ([], [])).1.getD j 0),
   (List.range T).map (fun j =>
      let w := argmaxFirst (results.map (fun r => r.1.getD j 0))
      (results.getD w ([], [])).2.getD j 0))

/-- The in-memory reduction of brightness (lines 469-476): per sample, np.argmax
over the node axis (first maximum wins) gives the owner, and the value is that
node's energy at the sample. -/
def inMemReduce (energies : List (List ℚ)) : List ℚ × List Nat :=
  let T := (energies.headD []).length
  ((List.range T).map (fun t =>
      (energies.getD (argmaxFirst (energies.map (fun e => e.getD t 0))) []).getD t 0),
   (List.range T).map (fun t => argmaxFirst (energies.map (fun e => e.getD t 0))))

/-- The concrete per-node energy traces used to exhibit the owner-index fault of
the out-of-core reduction: three nodes with length-one traces 0, 5 and 3. -/
def e3 : Nat → List ℚ := fun i => [[(0 : ℚ)], [5], [3]].getD i []

/-- An IEEE double as the detection picker sees it: NaN, an infinity, or a finite
value. -/
inductive FVal where
  | nan : FVal
  | pinf : FVal
  | ninf : FVal
  | fin : ℚ → FVal
deriving DecidableEq

/-- The largest finite IEEE double, (2^53 - 1) * 2^971. -/
def maxFloat : ℚ := (2 ^ 53 - 1) * 2 ^ 971

/-- np.nan_to_num: NaN becomes 0, the infinities become the extreme finite doubles,
finite values pass through. -/
def nanToNum : FVal → FVal
  | .nan => .fin 0
  | .pinf => .fin maxFloat
  | .ninf => .fin (-maxFloat)
  | .fin q => .fin q

/-- np.isnan on one value. -/
def isnanF : FVal → Bool
  | .nan => true
  | _ => false

/-- Lines 307-309 of _find_detections: replace with np.nan_to_num, then raise
ValueError when NaNs remain. -/
def findDetectionsGuard (cnr : List FVal) : Except String (List FVal) :=
  let c := cnr.map nanToNum
  if c.any isnanF then Except.error "Nans present" else Except.ok c

/-- The replacement the claim describes, in the specification's words: every
non-finite value becomes zero. -/
def specNanToZero : FVal → FVal
  | .fin q => .fin q
  | _ => .fin 0

/-- The pair loop of coherance (lines 363-365): the sum over all unordered channel
pairs i < j of the magnitude of the pair's zero-lag normalized cross-correlation,
with normxcorr2 (repository code outside src/) abstracted as the parameter ncc. -/
def pairSum (ncc : List ℚ → List ℚ → ℚ) (chans : List (List ℚ)) : ℚ :=
  ((List.range chans.length).map (fun i =>
    ((List.range' (i + 1) (chans.length - (i + 1))).map (fun j =>
      |ncc (chans.getD i []) (chans.getD j [])|)).sum)).sum

/-- coherance (lines 359-366) on a stream of equal-length channels, for which the
padding preamble of lines 350-358 is a no-op: twice the pair sum divided by
n*(n-1). -/
def coherance (ncc : List ℚ → List ℚ → ℚ) (chans : List (List ℚ)) : ℚ :=
  2 * pairSum ncc chans / ((chans.length : ℚ) * ((chans.length : ℚ) - 1))

/-- The claim's shift formula, from the specification's words: square the
amplitudes, pad the START with round(lag*rate) zeros, truncate to the original
length. -/
def specPadStart (dat : List ℚ) (lag rate : ℚ) : List ℚ :=
  (List.replicate (npadOf lag rate) (0 : ℚ) ++ dat.map (fun x => x ^ 2)).take dat.length

/-- The claim's station-matching policy, from the specification's words: iterate
over the STATION list; a station with several matching channels uses only the
first match; a station with no matching channel is skipped. -/
def nodeLoopSpec (sq : ℚ → ℚ) (clip_level : ℚ) (stations : List String) (lags : List ℚ)
    (stream : List Trace) : List (List ℚ) :=
  (List.range stations.length).filterMap (fun k =>
    match stream.filter (fun tr => tr.station == stations.getD k "") with
    | [] => none
    | tr :: _ => some (normEnergy sq clip_level (lags.getD k 0) tr))

end BrightLights

namespace BrightLights

/-- getD distributes over an elementwise sum of two rows of equal length. -/
theorem zipWith_add_getD (a b : List ℚ) (h : a.length = b.length) (t : Nat) :
    (List.zipWith (· + ·) a b).getD t 0 = a.getD t 0 + b.getD t 0 := by
  induction a generalizing b t with
  | nil =>
    cases b with
    | nil => simp
    | cons y ys => simp at h
  | cons x xs ih =>
    cases b with
    | nil => simp at h
    | cons y ys =>
      cases t with
      | zero => simp
      | succ t => simpa using ih ys (by simpa using h) t

/-- The row-stacking fold of _node_loop keeps the common row length and sums the
rows elementwise. -/
theorem sumRows_foldl_getD (L : Nat) (r : List ℚ) (rs : List (List ℚ))
    (hr : r.length = L) (hrs : ∀ x ∈ rs, x.length = L) :
    (rs.foldl (fun a b => List.zipWith (· + ·) a b) r).length = L ∧
    ∀ t, (rs.foldl (fun a b => List.zipWith (· + ·) a b) r).getD t 0 =
      r.getD t 0 + (rs.map (fun x => x.getD t 0)).sum := by
  induction rs generalizing r with
  | nil => simp [hr]
  | cons b bs ih =>
    have hb : b.length = L := hrs b (by simp)
    have hr2 : (List.zipWith (· + ·) r b).length = L := by
      simp [List.length_zipWith, hr, hb]
    obtain ⟨hl, hg⟩ := ih (List.zipWith (· + ·) r b) hr2 (fun x hx => hrs x (by simp [hx]))
    refine ⟨hl, fun t => ?_⟩
    rw [List.foldl_cons, hg t, zipWith_add_getD r b (by rw [hr, hb]) t]
    simp [add_assoc]

/-- The lag shift preserves the channel's sample count. -/
theorem laggedEnergy_length (dat : List ℚ) (lag rate : ℚ) :
    (laggedEnergy dat lag rate).length = dat.length := by
  unfold laggedEnergy
  simp only [List.length_drop, List.length_map, List.length_append, List.length_replicate]
  omega

/-- The normalized envelope has the channel's sample count. -/
theorem normEnergy_length (sq : ℚ → ℚ) (clip_level lag : ℚ) (tr : Trace) :
    (normEnergy sq clip_level lag tr).length = tr.data.length := by
  unfold normEnergy
  simp [laggedEnergy_length]

/-- filterMap collapses to map when the function is some of g on every member. -/
theorem filterMap_eq_map_of_mem {α β : Type} (f : α → Option β) (g : α → β) (l : List α)
    (h : ∀ x ∈ l, f x = some (g x)) : l.filterMap f = l.map g := by
  induction l with
  | nil => rfl
  | cons a as ih =>
    rw [List.filterMap_cons, h a (by simp), List.map_cons,
      ih (fun x hx => h x (by simp [hx]))]

/-- The channel loop of _node_loop, characterised: starting from any accumulator it
appends one normalized envelope per matching channel and one warning per
anomalous channel, in stream order. -/
theorem nodeLoop_foldl_char (sq : ℚ → ℚ) (cl : ℚ) (stations : List String) (lags : List ℚ)
    (stream : List Trace) (rows : List (List ℚ)) (ws : List String) :
    stream.foldl (nodeLoopStep sq cl stations lags) (rows, ws) =
      (rows ++ stream.filterMap (traceContrib sq cl stations lags),
       ws ++ (stream.map (traceWarns stations)).flatten) := by
  induction stream generalizing rows ws with
  | nil => simp
  | cons tr rest ih =>
    rcases hj : matchIdx stations tr with _ | ⟨a, _ | ⟨b, t⟩⟩
    · rw [List.foldl_cons,
        show nodeLoopStep sq cl stations lags (rows, ws) tr
            = (rows, ws ++ ["No station match"]) from by simp [nodeLoopStep, hj],
        ih]
      simp [traceContrib, traceWarns, hj]
    · rw [List.foldl_cons,
        show nodeLoopStep sq cl stations lags (rows, ws) tr
            = (rows ++ [normEnergy sq cl (lags.getD a 0) tr], ws) from by
          simp [nodeLoopStep, hj],
        ih]
      simp [traceContrib, traceWarns, hj]
    · rw [List.foldl_cons,
        show nodeLoopStep sq cl stations lags (rows, ws) tr
            = (rows ++ [normEnergy sq cl (lags.getD a 0) tr],
               ws ++ ["Too many stations"]) from by simp [nodeLoopStep, hj],
        ih]
      simp [traceContrib, traceWarns, hj]

end BrightLights

namespace BrightLights

/-- C10: for every fixed path, station list, phase and phaseout, the result of
_read_tt is identical for all values of its ps_ratio argument: the phase
conversion always multiplies or divides by the hard-coded constant 1.68 and
never reads the ps_ratio parameter.  Confirmed: the embedded per-file lag
computation readTTLags carries the parameter and never uses it. -/
theorem c10_ps_ratio_independent (phase phaseout : String) (traveltime : List ℚ)
    (r1 r2 : ℚ) :
    readTTLags phase phaseout traveltime r1 = readTTLags phase phaseout traveltime r2 := rfl

/-- C5 counterexample: the claim says every non-finite value is replaced with
ZERO, but np.nan_to_num sends a positive infinity to the largest finite double,
not to zero. -/
theorem c5_inf_to_zero_counterexample :
    findDetectionsGuard [FVal.pinf] = Except.ok [FVal.fin maxFloat] ∧
    nanToNum FVal.pinf ≠ specNanToZero FVal.pinf ∧
    specNanToZero FVal.pinf = FVal.fin 0 := by
  refine ⟨rfl, ?_, rfl⟩
  simp only [nanToNum, specNanToZero, ne_eq, FVal.fin.injEq]
  norm_num [maxFloat]

/-- C5 amended: in _find_detections every NaN in the CNR is replaced with zero
and every infinity with the extreme finite double before any threshold
computation, and the subsequent NaN check can never fire, so the fatal error
branch is unreachable. -/
theorem c5_nan_replacement_amended (cnr : List FVal) :
    findDetectionsGuard cnr = Except.ok (cnr.map nanToNum) ∧
    nanToNum FVal.nan = FVal.fin 0 ∧ nanToNum FVal.pinf = FVal.fin maxFloat ∧
    nanToNum FVal.ninf = FVal.fin (-maxFloat) ∧
    ∀ q, nanToNum (FVal.fin q) = FVal.fin q := by
  refine ⟨?_, rfl, rfl, rfl, fun q => rfl⟩
  have h : ∀ x : FVal, isnanF (nanToNum x) = false := by
    intro x; cases x <;> rfl
  have hany : (cnr.map nanToNum).any isnanF = false := by
    rw [List.any_map, List.any_eq_false]
    intro x hx
    simp [Function.comp, h]
  simp [findDetectionsGuard, hany]

/-- C3 counterexample: on the two-sample channel [1, 2] with a one-sample lag the
source computes [4, 0] (pad at the END, drop the first samples) while the
claim's pad-at-the-start formula yields [0, 1]. -/
theorem c3_pad_start_counterexample :
    laggedEnergy [1, 2] 1 1 = [4, 0] ∧ specPadStart [1, 2] 1 1 = [0, 1] ∧
    laggedEnergy [1, 2] 1 1 ≠ specPadStart [1, 2] 1 1 := by
  norm_num [laggedEnergy, specPadStart, npadOf, pyround]

/-- C3 amended: in _node_loop the lag-shifted energy envelope equals the squared
amplitude series with its first round(lag*rate) samples DROPPED and padded at
the END with round(lag*rate) zeros (truncated to the original length), so the
energy value at sample t reflects the arrival that occurred lag seconds AFTER t. -/
theorem c3_lag_shift_amended (dat : List ℚ) (lag rate : ℚ) (h : 0 ≤ lag * rate) :
    laggedEnergy dat lag rate =
      (dat.drop (npadOf lag rate)).map (fun x => x ^ 2) ++
        List.replicate (min (npadOf lag rate) dat.length) (0 : ℚ) := by
  unfold laggedEnergy
  have h0 : ((0 : ℚ)) ^ 2 = 0 := by norm_num
  simp only [List.length_replicate, List.map_append, List.map_replicate, h0,
    List.drop_append_eq_append_drop, List.length_map, List.drop_replicate]
  congr 1
  · exact (List.map_drop _ _ _).symm
  · congr 1
    omega

/-- C3 witness: the amended lag-shift identity evaluated on the channel [1, 2]
with lag 1 and sampling rate 1. -/
theorem c3_lag_shift_witness :
    (0 ≤ (1 : ℚ) * 1) ∧
    laggedEnergy [1, 2] 1 1 =
      (([1, 2] : List ℚ).drop (npadOf 1 1)).map (fun x => x ^ 2) ++
        List.replicate (min (npadOf 1 1) ([1, 2] : List ℚ).length) (0 : ℚ) :=
  ⟨by norm_num, c3_lag_shift_amended [1, 2] 1 1 (by norm_num)⟩

/-- C2 (code_bug): with one station, lag row [0, 10, 0] and threshold 1, nodes 0
and 2 carry identical lag vectors, yet _rm_similarlags retains both: its netdif
matrix holds the row of node 0 twice, so the retention test for node i reads the
distances of node i-1.  The L1 moveout distance between the two retained nodes
is 0, which does not exceed the threshold 1, refuting the claim. -/
theorem c2_dedup_offbyone_bug :
    rmSimilarlags ["S1"] [((0 : ℚ), 0, 0), (1, 1, 1), (2, 2, 2)] [[0, 10, 0]] 1 =
      (["S1"], [((0 : ℚ), 0, 0), (2, 2, 2)], [[0, 0]]) ∧
    l1dist (lagsCol [[(0 : ℚ), 10, 0]] 0) (lagsCol [[(0 : ℚ), 10, 0]] 2) = 0 ∧
    ¬((1 : ℚ) < l1dist (lagsCol [[(0 : ℚ), 10, 0]] 0) (lagsCol [[(0 : ℚ), 10, 0]] 2)) := by
  refine ⟨?_, ?_, ?_⟩
  · norm_num [rmSimilarlags, rmKeptIndeces, netdifMat, netdifRow, netdifVal, lagsCol,
      List.range'_succ]
  · norm_num [l1dist, lagsCol]
  · norm_num [l1dist, lagsCol]

/-- C4 (code_bug): with 4 nodes and num_cores = 2 the chunks brightness hands to
the out-of-core reduction are [0, 1] and the empty list: the final chunk starts
at node_splits*(i+1) where i is the value leaked from an earlier list
comprehension (len(nodes)-1), so nodes 2 and 3 belong to no chunk and the claimed
exact partition of 0..N-1 fails. -/
theorem c4_chunking_gap_bug :
    usedChunks 4 2 = [[0, 1], []] ∧
    ¬(2 ∈ (usedChunks 4 2).flatten) ∧ ¬(3 ∈ (usedChunks 4 2).flatten) := by decide

/-- C1 (code_bug): on the per-node energy traces [0], [5], [3] reduced
out-of-core as the single chunk [0, 1, 2] (the partition brightness builds for
num_cores = 1), the cross-chunk fold reports owner node 0 at the only sample,
although node 0's energy there is 0: line 282 of _cum_net_resp overwrites the
accumulated owner array with the current iteration's argmax, resetting samples
where the running maximum won to owner 0.  The in-memory reduction reports the
correct owner, node 1, the lowest index achieving the maximum 5, so the two
modes disagree and the claim fails. -/
theorem c1_out_of_core_owner_bug :
    (brightnessOOC e3 (usedChunks 3 1)).2 = [0] ∧
    (inMemReduce [[(0 : ℚ)], [5], [3]]).2 = [1] ∧
    (brightnessOOC e3 (usedChunks 3 1)).1 = (inMemReduce [[(0 : ℚ)], [5], [3]]).1 ∧
    e3 0 = [0] ∧ e3 1 = [5] := by decide

/-- C6 counterexample: with the single station entry A and two channels both named
A (each one sample of amplitude 1, unit sampling rate, clip level 2, sqrt
evaluated only at 1 where the identity agrees with it), _node_loop adds BOTH
channels' normalized envelopes and warns about neither, producing the energy
trace [2]; the claim's policy of using only the first matching channel per
station produces [1]. -/
theorem c6_first_channel_counterexample :
    nodeLoop (fun x => x) 2 ["A"] [0] [⟨"A", [1], 1⟩, ⟨"A", [1], 1⟩] = some ([], [2]) ∧
    sumRows (nodeLoopSpec (fun x => x) 2 ["A"] [0] [⟨"A", [1], 1⟩, ⟨"A", [1], 1⟩]) = [1] ∧
    (([2] : List ℚ) ≠ [1]) := by
  have hm : matchIdx ["A"] ⟨"A", [1], 1⟩ = [0] := by decide
  have hne : normEnergy (fun x => x) 2 0 ⟨"A", [1], 1⟩ = [1] := by
    norm_num [normEnergy, laggedEnergy, npadOf, pyround, meanQ, clipQ]
  refine ⟨?_, ?_, by norm_num⟩
  · unfold nodeLoop
    rw [nodeLoop_foldl_char]
    simp only [List.filterMap_cons, List.filterMap_nil, traceContrib, traceWarns, hm,
      List.map_cons, List.map_nil]
    norm_num [sumRows, hne]
  · norm_num [nodeLoopSpec, List.range_succ, List.range_zero, List.filter_cons,
      List.filter_nil, List.filterMap_cons, sumRows, hne]

end BrightLights

namespace BrightLights

/-- C6 amended: _node_loop iterates over CHANNELS, not stations: every channel
whose station name occurs in the station list contributes one normalized
envelope (multiple channels of the same station each contribute); a channel
whose station name matches several station-list entries uses the first entry's
lag and a Too many stations warning is emitted; a channel matching no entry is
skipped with a No station match warning; both cases are non-fatal, and the
node's energy trace is the elementwise sum of all contributed envelopes. -/
theorem c6_channel_matching_amended (sq : ℚ → ℚ) (cl : ℚ) (stations : List String)
    (lags : List ℚ) (stream : List Trace) :
    nodeLoop sq cl stations lags stream =
      match stream.filterMap (traceContrib sq cl stations lags) with
      | [] => none
      | r :: rs => some ((stream.map (traceWarns stations)).flatten, sumRows (r :: rs)) := by
  unfold nodeLoop
  rw [nodeLoop_foldl_char]
  simp only [List.nil_append]

/-- C7: in _node_loop each matched station's lagged energy envelope is clipped
above at clip_level times the envelope mean (with floor 0), divided by the RMS
of the clipped envelope, and the node's energy trace is the elementwise sum of
these normalized envelopes over all matched stations.  Confirmed under the
hypotheses that every channel matches exactly one station entry, channels carry
distinct stations (so channels correspond one-to-one to matched stations), all
channels have the same sample count, and the stream is nonempty (the source
crashes on an empty stack). -/
theorem c7_clip_normalize_sum (sq : ℚ → ℚ) (cl : ℚ) (stations : List String)
    (lags : List ℚ) (stream : List Trace) (L : Nat)
    (h1 : ∀ tr ∈ stream, (matchIdx stations tr).length = 1)
    (h2 : stream ≠ [])
    (h3 : ∀ tr ∈ stream, tr.data.length = L)
    (h4 : (stream.map Trace.station).Nodup) :
    ∃ E, nodeLoop sq cl stations lags stream = some ([], E) ∧ E.length = L ∧
      ∀ t, E.getD t 0 = (stream.map (fun tr =>
        (normEnergy sq cl (lags.getD ((matchIdx stations tr).headD 0) 0) tr).getD t 0)).sum := by
  have hrows : stream.filterMap (traceContrib sq cl stations lags) =
      stream.map (fun tr =>
        normEnergy sq cl (lags.getD ((matchIdx stations tr).headD 0) 0) tr) := by
    apply filterMap_eq_map_of_mem
    intro tr htr
    have hl := h1 tr htr
    rcases hj : matchIdx stations tr with _ | ⟨a, _ | ⟨b, t2⟩⟩
    · rw [hj] at hl; simp at hl
    · simp [traceContrib, hj]
    · rw [hj] at hl; simp at hl
  have hwarns : ∀ (l : List Trace), (∀ tr ∈ l, (matchIdx stations tr).length = 1) →
      (l.map (traceWarns stations)).flatten = [] := by
    intro l hl
    induction l with
    | nil => rfl
    | cons a as ih =>
      have ha := hl a (by simp)
      have hw : traceWarns stations a = [] := by
        unfold traceWarns
        rw [ha]
        norm_num
      simp [hw, ih (fun x hx => hl x (by simp [hx]))]
  unfold nodeLoop
  rw [nodeLoop_foldl_char]
  simp only [List.nil_append, hrows, hwarns stream h1]
  cases stream with
  | nil => exact absurd rfl h2
  | cons tr0 rest =>
    simp only [List.map_cons]
    have hlen0 : (normEnergy sq cl (lags.getD ((matchIdx stations tr0).headD 0) 0) tr0).length
        = L := by
      rw [normEnergy_length]
      exact h3 tr0 (by simp)
    have hlenr : ∀ x ∈ rest.map (fun tr =>
        normEnergy sq cl (lags.getD ((matchIdx stations tr).headD 0) 0) tr), x.length = L := by
      intro x hx
      simp only [List.mem_map] at hx
      obtain ⟨tr, htr, rfl⟩ := hx
      rw [normEnergy_length]
      exact h3 tr (by simp [htr])
    obtain ⟨hL, hget⟩ := sumRows_foldl_getD L
      (normEnergy sq cl (lags.getD ((matchIdx stations tr0).headD 0) 0) tr0)
      (rest.map (fun tr => normEnergy sq cl (lags.getD ((matchIdx stations tr).headD 0) 0) tr))
      hlen0 hlenr
    refine ⟨_, rfl, ?_, ?_⟩
    · simpa [sumRows] using hL
    · intro t
      have hh := hget t
      simp only [sumRows]
      rw [hh, List.map_map]
      rfl

/-- C7 witness: the stacking identity on a single one-sample channel of station A
with lag 0, clip level 2 and the square-root primitive evaluated only at 1. -/
theorem c7_clip_normalize_witness :
    (∀ tr ∈ ([⟨"A", [1], 1⟩] : List Trace), (matchIdx ["A"] tr).length = 1) ∧
    (∃ E, nodeLoop (fun x => x) 2 ["A"] [(0 : ℚ)] [⟨"A", [1], 1⟩] = some ([], E) ∧
      E.length = 1 ∧
      ∀ t, E.getD t 0 = (([⟨"A", [1], 1⟩] : List Trace).map (fun tr =>
        (normEnergy (fun x => x) 2
          (([(0 : ℚ)] : List ℚ).getD ((matchIdx ["A"] tr).headD 0) 0) tr).getD t 0)).sum) :=
  ⟨by decide, c7_clip_normalize_sum (fun x => x) 2 ["A"] [(0 : ℚ)] [⟨"A", [1], 1⟩] 1
    (by decide) (by simp) (by decide) (by decide)⟩

/-- C8: len(nodes) equals the length of every station's lag row, and both
_resample_grid and _rm_similarlags preserve the shape invariant together with
index alignment: their outputs are slices of the inputs along one common index
list, so the lag value at row s, position i describes the same physical node as
the i-th output node.  Confirmed. -/
theorem c8_shape_alignment (stations : List String) (nodes : List Node)
    (lags : List (List ℚ)) (mindepth maxdepth : ℚ) (contains : ℚ × ℚ → Bool) (thr : ℚ)
    (hshape : ∀ row ∈ lags, row.length = nodes.length) :
    (∀ row ∈ (resampleGrid stations nodes lags mindepth maxdepth contains).2.2,
        row.length = (resampleGrid stations nodes lags mindepth maxdepth contains).2.1.length) ∧
    (∃ idx : List Nat,
        (resampleGrid stations nodes lags mindepth maxdepth contains).2.1 =
          idx.map (fun i => nodes.getD i (0, 0, 0)) ∧
        (resampleGrid stations nodes lags mindepth maxdepth contains).2.2 =
          lags.map (fun row => idx.map (fun i => row.getD i 0))) ∧
    (∀ row ∈ (rmSimilarlags stations nodes lags thr).2.2,
        row.length = (rmSimilarlags stations nodes lags thr).2.1.length) ∧
    (∃ idx : List Nat,
        (rmSimilarlags stations nodes lags thr).2.1 =
          idx.map (fun i => nodes.getD i (0, 0, 0)) ∧
        (rmSimilarlags stations nodes lags thr).2.2 =
          lags.map (fun row => idx.map (fun i => row.getD i 0))) := by
  refine ⟨?_, ⟨resampKept nodes mindepth maxdepth contains, rfl, rfl⟩, ?_,
    ⟨rmKeptIndeces lags nodes.length thr, rfl, rfl⟩⟩
  · intro row hrow
    simp only [resampleGrid, List.mem_map] at hrow
    obtain ⟨r0, _, rfl⟩ := hrow
    simp [resampleGrid]
  · intro row hrow
    simp only [rmSimilarlags, List.mem_map] at hrow
    obtain ⟨r0, _, rfl⟩ := hrow
    simp [rmSimilarlags]

/-- C8 witness: the shape and alignment facts on a one-station, one-node grid. -/
theorem c8_shape_alignment_witness :
    (∀ row ∈ ([[(1 : ℚ)]] : List (List ℚ)), row.length = ([((0 : ℚ), 0, 5)] : List Node).length) ∧
    ((∀ row ∈ (resampleGrid ["A"] [((0 : ℚ), 0, 5)] [[(1 : ℚ)]] 0 10 (fun _ => true)).2.2,
        row.length =
          (resampleGrid ["A"] [((0 : ℚ), 0, 5)] [[(1 : ℚ)]] 0 10 (fun _ => true)).2.1.length) ∧
    (∃ idx : List Nat,
        (resampleGrid ["A"] [((0 : ℚ), 0, 5)] [[(1 : ℚ)]] 0 10 (fun _ => true)).2.1 =
          idx.map (fun i => ([((0 : ℚ), 0, 5)] : List Node).getD i (0, 0, 0)) ∧
        (resampleGrid ["A"] [((0 : ℚ), 0, 5)] [[(1 : ℚ)]] 0 10 (fun _ => true)).2.2 =
          ([[(1 : ℚ)]] : List (List ℚ)).map (fun row => idx.map (fun i => row.getD i 0))) ∧
    (∀ row ∈ (rmSimilarlags ["A"] [((0 : ℚ), 0, 5)] [[(1 : ℚ)]] 0).2.2,
        row.length = (rmSimilarlags ["A"] [((0 : ℚ), 0, 5)] [[(1 : ℚ)]] 0).2.1.length) ∧
    (∃ idx : List Nat,
        (rmSimilarlags ["A"] [((0 : ℚ), 0, 5)] [[(1 : ℚ)]] 0).2.1 =
          idx.map (fun i => ([((0 : ℚ), 0, 5)] : List Node).getD i (0, 0, 0)) ∧
        (rmSimilarlags ["A"] [((0 : ℚ), 0, 5)] [[(1 : ℚ)]] 0).2.2 =
          ([[(1 : ℚ)]] : List (List ℚ)).map (fun row => idx.map (fun i => row.getD i 0)))) :=
  ⟨by decide, c8_shape_alignment ["A"] [((0 : ℚ), 0, 5)] [[(1 : ℚ)]] 0 10 (fun _ => true) 0
    (by decide)⟩

/-- C9: for a stream of n channels (n at least 2) of equal length, coherance
equals the sum over the n(n-1)/2 unordered channel pairs of the magnitude of the
pair's zero-lag normalized cross-correlation divided by n(n-1)/2, and the score
is non-negative.  Confirmed, with normxcorr2 abstracted as the parameter ncc. -/
theorem c9_coherance_pair_normalization (ncc : List ℚ → List ℚ → ℚ)
    (chans : List (List ℚ)) (h2 : 2 ≤ chans.length)
    (hlen : ∀ c ∈ chans, c.length = (chans.headD []).length) :
    coherance ncc chans =
      pairSum ncc chans / (((chans.length : ℚ) * ((chans.length : ℚ) - 1)) / 2) ∧
    0 ≤ coherance ncc chans := by
  have hps : 0 ≤ pairSum ncc chans := by
    unfold pairSum
    apply List.sum_nonneg
    intro x hx
    simp only [List.mem_map] at hx
    obtain ⟨i, _, rfl⟩ := hx
    apply List.sum_nonneg
    intro y hy
    simp only [List.mem_map] at hy
    obtain ⟨j, _, rfl⟩ := hy
    exact abs_nonneg _
  have hn : (2 : ℚ) ≤ (chans.length : ℚ) := by exact_mod_cast h2
  constructor
  · unfold coherance
    rw [div_div_eq_mul_div]
    ring
  · unfold coherance
    apply div_nonneg
    · linarith
    · nlinarith

/-- C9 witness: the pair-normalization identity on two one-sample channels with a
constant cross-correlation of 1. -/
theorem c9_coherance_witness :
    (2 ≤ ([[(1 : ℚ)], [1]] : List (List ℚ)).length) ∧
    (coherance (fun _ _ => (1 : ℚ)) [[1], [1]] =
        pairSum (fun _ _ => (1 : ℚ)) [[1], [1]] /
          (((([[(1 : ℚ)], [1]] : List (List ℚ)).length : ℚ) *
            ((([[(1 : ℚ)], [1]] : List (List ℚ)).length : ℚ) - 1)) / 2) ∧
      0 ≤ coherance (fun _ _ => (1 : ℚ)) [[1], [1]]) :=
  ⟨by decide, c9_coherance_pair_normalization (fun _ _ => (1 : ℚ)) [[1], [1]]
    (by decide) (by decide)⟩

end BrightLights
